import Mathlib

/-!
Shallow embedding of the to-do application in `src/`:
the `TodoItem` data model, a persistent store, and the five request
handlers (`HomeView`, `TodoCreateView`, `TodoUpdateView`,
`TodoDeleteView`, `TodoToggleView`) from `src/01-todo/core/views.py`,
routed as in `src/01-todo/core/urls.py`.

Timestamps are modelled with a logical clock on the store: each
mutating request reads the clock for `auto_now` / `auto_now_add`
semantics and advances it, so `created_at` of a freshly created item
is strictly larger than that of every earlier item.
-/

namespace Todo

/-- The sole entity. `description` is nullable (`Option`); timestamps are
logical-clock values. Mirrors the `TodoItem` model the views operate on. -/
structure TodoItem where
  id : Nat
  title : String
  description : Option String
  completed : Bool
  created_at : Nat
  updated_at : Nat
deriving Repr, DecidableEq

/-- The persistent store: the table of items, the next surrogate key,
and the logical clock used for timestamps. -/
structure Store where
  items : List TodoItem
  nextId : Nat
  now : Nat
deriving Repr, DecidableEq

def Store.empty : Store := ⟨[], 1, 0⟩

/-- HTTP responses the handlers produce: 302 redirect, 200 render
(with or without form errors), 404, 405. -/
inductive Response where
  | redirect (location : String)
  | render (template : String) (errors : Bool)
  | notFound
  | methodNotAllowed
deriving Repr, DecidableEq

inductive Method where
  | GET
  | POST
deriving Repr, DecidableEq

/-- Resolve a primary key against the store, as `get_object_or_404`
does before each detail operation. -/
def findItem (s : Store) (pk : Nat) : Option TodoItem :=
  s.items.find? (fun t => t.id == pk)

/-- A submitted form body: HTTP form encoding, key-value pairs. -/
abbrev Body := List (String × String)

/-- Value a form's CharField reads from the body: the submitted string,
or the empty string when the key is absent. -/
def fieldValue (body : Body) (name : String) : String :=
  (List.lookup name body).getD ""

/-- Value a form's checkbox BooleanField reads from the body: absent
means false, the false-like strings mean false, anything else true. -/
def checkboxValue (body : Body) (name : String) : Bool :=
  match List.lookup name body with
  | none => false
  | some v => !(v == "false" || v == "False" || v == "0")

/-- The listing order `ordering = [-created_at]`: `a` comes no later
than `b` when `a.created_at` is at least `b.created_at`. -/
def createdDesc (a b : TodoItem) : Prop :=
  b.created_at ≤ a.created_at

instance : DecidableRel createdDesc :=
  fun a b => Nat.decLe b.created_at a.created_at

instance : IsTotal TodoItem createdDesc :=
  ⟨fun a b => Nat.le_total b.created_at a.created_at⟩

instance : IsTrans TodoItem createdDesc :=
  ⟨fun _ _ _ hab hbc => Nat.le_trans hbc hab⟩

/-- `HomeView` (`ListView` with `ordering = [-created_at]`): every
stored item, ordered by `created_at` descending. -/
def list_all (s : Store) : List TodoItem :=
  List.insertionSort createdDesc s.items

/-- Modelled from the spec: direct construction
`TodoItem.objects.create(...)` bypassing the form. `models.py` is not in
`src/`; per §3 of the spec, `description` may be null when constructed
directly without the field, `completed` starts false unless explicitly
set, and both timestamps are set to the current time at creation. -/
def createDirect (s : Store) (title : String) (description : Option String)
    (completed : Bool) : Store × TodoItem :=
  let item : TodoItem := ⟨s.nextId, title, description, completed, s.now, s.now⟩
  (⟨s.items ++ [item], s.nextId + 1, s.now + 1⟩, item)

/-- `GET /create/`: renders the empty form; no state change. -/
def createGet (s : Store) : Store × Response :=
  (s, .render "todo_form.html" false)

/-- `POST /create/` (`TodoCreateView`, `fields = [title, description]`):
the form reads only `title` and `description` from the body; a missing
or empty `title` fails validation (200 re-render with errors, store
unchanged); otherwise the item is persisted with `completed = false`,
a null-free `description`, both timestamps set to now, and the
response redirects to the list. -/
def createPost (s : Store) (body : Body) : Store × Response :=
  let t := fieldValue body "title"
  if t = "" then
    (s, .render "todo_form.html" true)
  else
    let item : TodoItem :=
      ⟨s.nextId, t, some (fieldValue body "description"), false, s.now, s.now⟩
    (⟨s.items ++ [item], s.nextId + 1, s.now + 1⟩, .redirect "/")

/-- `GET /<pk>/edit/` (`TodoUpdateView`): 404 if the id is absent,
otherwise renders the pre-filled form; no state change. -/
def editGet (s : Store) (pk : Nat) : Store × Response :=
  match findItem s pk with
  | none => (s, .notFound)
  | some _ => (s, .render "todo_form.html" false)

/-- The in-table update a successful edit performs on the row with the
given key: set the three form fields and refresh `updated_at`. -/
def editUpd (clock pk : Nat) (title description : String) (completed : Bool)
    (it : TodoItem) : TodoItem :=
  if it.id == pk then
    { it with
      title := title
      description := some description
      completed := completed
      updated_at := clock }
  else it

/-- `POST /<pk>/edit/` (`TodoUpdateView`,
`fields = [title, description, completed]`): 404 if the id is absent;
empty `title` fails validation (200, store unchanged); otherwise the
three fields are updated, `updated_at` is refreshed, and the response
redirects to the list. -/
def editPost (s : Store) (pk : Nat) (body : Body) : Store × Response :=
  match findItem s pk with
  | none => (s, .notFound)
  | some _ =>
    if fieldValue body "title" = "" then
      (s, .render "todo_form.html" true)
    else
      (⟨s.items.map
          (editUpd s.now pk (fieldValue body "title")
            (fieldValue body "description") (checkboxValue body "completed")),
        s.nextId, s.now + 1⟩, .redirect "/")

/-- `GET /<pk>/delete/` (`TodoDeleteView`): 404 if the id is absent,
otherwise renders the confirmation page; no state change. -/
def deleteGet (s : Store) (pk : Nat) : Store × Response :=
  match findItem s pk with
  | none => (s, .notFound)
  | some _ => (s, .render "todo_confirm_delete.html" false)

/-- `POST /<pk>/delete/` (`TodoDeleteView`): 404 if the id is absent,
otherwise removes the item permanently and redirects to the list. -/
def deletePost (s : Store) (pk : Nat) : Store × Response :=
  match findItem s pk with
  | none => (s, .notFound)
  | some _ =>
    (⟨s.items.filter (fun t => !(t.id == pk)), s.nextId, s.now⟩, .redirect "/")

/-- The in-table update a toggle performs on the row with the given
key: flip `completed` and refresh `updated_at` (the `save()` call). -/
def toggleUpd (clock pk : Nat) (t : TodoItem) : TodoItem :=
  if t.id == pk then
    { t with completed := !t.completed, updated_at := clock }
  else t

/-- `TodoToggleView.post`: `get_object_or_404`, flip `completed`,
`save()` (which refreshes `updated_at`), redirect to the list. -/
def togglePost (s : Store) (pk : Nat) : Store × Response :=
  match findItem s pk with
  | none => (s, .notFound)
  | some _ =>
    (⟨s.items.map (toggleUpd s.now pk), s.nextId, s.now + 1⟩, .redirect "/")

/-- Method dispatch for `/<pk>/toggle/`: `TodoToggleView` defines only
`post`, so every other verb is answered 405 before any lookup. -/
def toggleDispatch (m : Method) (s : Store) (pk : Nat) : Store × Response :=
  match m with
  | .POST => togglePost s pk
  | _ => (s, .methodNotAllowed)

/-- Store well-formedness: every stored item was stamped strictly before
the current clock value and received an id below the next key. Holds in
every store reachable from `Store.empty`. -/
def Store.WF (s : Store) : Prop :=
  ∀ t ∈ s.items, t.created_at < s.now ∧ t.id < s.nextId

instance (s : Store) : Decidable s.WF := by
  unfold Store.WF; infer_instance

/-- A one-item store used to instantiate the hypothesized theorems. -/
def demoItem : TodoItem := ⟨1, "Buy milk", some "", false, 0, 0⟩

/-- A one-item store used to instantiate the hypothesized theorems. -/
def demoStore : Store := ⟨[demoItem], 2, 1⟩

/-! ### Helper lemmas -/

theorem toggleUpd_id (clock pk : Nat) (x : TodoItem) :
    (toggleUpd clock pk x).id = x.id := by
  unfold toggleUpd; split <;> rfl

theorem editUpd_id (clock pk : Nat) (ti d : String) (c : Bool) (x : TodoItem) :
    (editUpd clock pk ti d c x).id = x.id := by
  unfold editUpd; split <;> rfl

theorem comp_id_pred (pk : Nat) (f : TodoItem → TodoItem)
    (hf : ∀ x, (f x).id = x.id) :
    ((fun x : TodoItem => x.id == pk) ∘ f) = (fun x : TodoItem => x.id == pk) := by
  funext x
  simp only [Function.comp_apply, hf]

theorem find?_map_upd (l : List TodoItem) (pk : Nat) (f : TodoItem → TodoItem)
    (hf : ∀ x, (f x).id = x.id) :
    (l.map f).find? (fun x => x.id == pk) =
      (l.find? (fun x => x.id == pk)).map f := by
  rw [List.find?_map, comp_id_pred pk f hf]

theorem findItem_togglePost (s : Store) (pk : Nat) (t : TodoItem)
    (ht : findItem s pk = some t) :
    findItem (togglePost s pk).1 pk =
      some { t with completed := !t.completed, updated_at := s.now } := by
  have ht' : List.find? (fun x : TodoItem => x.id == pk) s.items = some t := ht
  have hpk : (t.id == pk) = true := by
    have h := List.find?_some ht'
    exact h
  unfold togglePost
  rw [ht]
  show findItem ⟨s.items.map (toggleUpd s.now pk), s.nextId, s.now + 1⟩ pk = _
  unfold findItem
  rw [find?_map_upd _ _ _ (toggleUpd_id s.now pk), ht']
  simp [toggleUpd, hpk]

theorem findItem_editPost (s : Store) (pk : Nat) (t : TodoItem) (body : Body)
    (ht : findItem s pk = some t) (htitle : fieldValue body "title" ≠ "") :
    findItem (editPost s pk body).1 pk =
      some { t with
        title := fieldValue body "title"
        description := some (fieldValue body "description")
        completed := checkboxValue body "completed"
        updated_at := s.now } := by
  have ht' : List.find? (fun x : TodoItem => x.id == pk) s.items = some t := ht
  have hpk : (t.id == pk) = true := by
    have h := List.find?_some ht'
    exact h
  unfold editPost
  rw [ht]
  show findItem (if fieldValue body "title" = "" then _ else _ : Store × Response).1 pk = _
  rw [if_neg htitle]
  show findItem
      ⟨s.items.map
          (editUpd s.now pk (fieldValue body "title")
            (fieldValue body "description") (checkboxValue body "completed")),
        s.nextId, s.now + 1⟩ pk = _
  unfold findItem
  rw [find?_map_upd _ _ _
    (editUpd_id s.now pk (fieldValue body "title") (fieldValue body "description")
      (checkboxValue body "completed")), ht']
  simp [editUpd, hpk]

theorem findItem_deletePost (s : Store) (pk : Nat) (t : TodoItem)
    (ht : findItem s pk = some t) :
    findItem (deletePost s pk).1 pk = none := by
  unfold deletePost
  rw [ht]
  show findItem ⟨s.items.filter (fun x => !(x.id == pk)), s.nextId, s.now⟩ pk = none
  unfold findItem
  rw [List.find?_eq_none]
  intro x hx
  have hq := (List.mem_filter.mp hx).2
  simp only [Bool.not_eq_true'] at hq
  simp [hq]

/-! ### Claims -/

/-- C1: the create operation succeeds if and only if the submitted title
is non-empty; on success an item with that title is appended and the
response is a 302 redirect to the list; on failure the response is a 200
re-render with errors and the store is unchanged. -/
theorem create_succeeds_iff_title_nonempty (s : Store) (body : Body) :
    ((createPost s body).2 = Response.redirect "/" ↔ fieldValue body "title" ≠ "") ∧
    (fieldValue body "title" ≠ "" →
      ∃ item : TodoItem, item.title = fieldValue body "title" ∧
        (createPost s body).1.items = s.items ++ [item]) ∧
    (fieldValue body "title" = "" →
      (createPost s body).2 = Response.render "todo_form.html" true ∧
      (createPost s body).1 = s) := by
  by_cases h : fieldValue body "title" = ""
  · refine ⟨?_, fun hc => absurd h hc, fun _ => ?_⟩ <;> simp [createPost, h]
  · refine ⟨?_, fun _ => ?_, fun hc => absurd hc h⟩
    · simp [createPost, h]
    · exact ⟨⟨s.nextId, fieldValue body "title",
        some (fieldValue body "description"), false, s.now, s.now⟩,
        rfl, by simp [createPost, h]⟩

/-- C3: toggling an existing item twice returns its `completed` flag to
its original value. -/
theorem toggle_twice_involutive (s : Store) (pk : Nat) (t : TodoItem)
    (ht : findItem s pk = some t) :
    ∃ t' : TodoItem,
      findItem (togglePost (togglePost s pk).1 pk).1 pk = some t' ∧
      t'.completed = t.completed := by
  have h1 := findItem_togglePost s pk t ht
  have h2 := findItem_togglePost (togglePost s pk).1 pk _ h1
  exact ⟨_, h2, by simp⟩

/-- Witness for C3 on a concrete one-item store. -/
theorem toggle_twice_involutive_witness :
    ∃ t' : TodoItem,
      findItem (togglePost (togglePost demoStore 1).1 1).1 1 = some t' ∧
      t'.completed = demoItem.completed :=
  toggle_twice_involutive demoStore 1 demoItem (by decide)

/-- C4: toggling an existing item flips only its `completed` flag and
refreshes its `updated_at`; its id, title, description and `created_at`
are kept, every other item is untouched, the next key is untouched, and
the only other observable effect is the 302 redirect. -/
theorem toggle_frame (s : Store) (pk : Nat) (t : TodoItem)
    (ht : findItem s pk = some t) :
    findItem (togglePost s pk).1 pk =
      some ⟨t.id, t.title, t.description, !t.completed, t.created_at, s.now⟩ ∧
    (∀ u ∈ s.items, u.id ≠ pk → u ∈ (togglePost s pk).1.items) ∧
    (∀ u ∈ (togglePost s pk).1.items, u.id ≠ pk → u ∈ s.items) ∧
    (togglePost s pk).1.nextId = s.nextId ∧
    (togglePost s pk).2 = Response.redirect "/" := by
  have hstate : (togglePost s pk).1 =
      ⟨s.items.map (toggleUpd s.now pk), s.nextId, s.now + 1⟩ := by
    unfold togglePost
    rw [ht]
  refine ⟨findItem_togglePost s pk t ht, ?_, ?_, ?_, ?_⟩
  · intro u hu hid
    rw [hstate]
    have : toggleUpd s.now pk u = u := by
      unfold toggleUpd
      rw [if_neg (by simpa using hid)]
    exact this ▸ List.mem_map_of_mem (toggleUpd s.now pk) hu
  · intro u hu hid
    rw [hstate] at hu
    obtain ⟨v, hv, hvu⟩ := List.mem_map.mp hu
    have hvid : v.id = u.id := by rw [← hvu, toggleUpd_id]
    have : toggleUpd s.now pk v = v := by
      unfold toggleUpd
      rw [if_neg (by simpa [hvid] using hid)]
    rwa [← hvu, this]
  · rw [hstate]
  · unfold togglePost
    rw [ht]

/-- Witness for C4 on a concrete one-item store. -/
theorem toggle_frame_witness :
    findItem (togglePost demoStore 1).1 1 =
      some ⟨demoItem.id, demoItem.title, demoItem.description,
        !demoItem.completed, demoItem.created_at, demoStore.now⟩ ∧
    (∀ u ∈ demoStore.items, u.id ≠ 1 → u ∈ (togglePost demoStore 1).1.items) ∧
    (∀ u ∈ (togglePost demoStore 1).1.items, u.id ≠ 1 → u ∈ demoStore.items) ∧
    (togglePost demoStore 1).1.nextId = demoStore.nextId ∧
    (togglePost demoStore 1).2 = Response.redirect "/" :=
  toggle_frame demoStore 1 demoItem (by decide)

/-- C10: a GET on the delete route of an existing id renders the
confirmation page and leaves the store unchanged (the item still
exists); only the POST removes the item. -/
theorem delete_get_is_pure (s : Store) (pk : Nat) (t : TodoItem)
    (ht : findItem s pk = some t) :
    deleteGet s pk = (s, Response.render "todo_confirm_delete.html" false) ∧
    findItem (deleteGet s pk).1 pk = some t ∧
    findItem (deletePost s pk).1 pk = none := by
  have hg : deleteGet s pk = (s, Response.render "todo_confirm_delete.html" false) := by
    unfold deleteGet
    rw [ht]
  exact ⟨hg, by rw [hg]; exact ht, findItem_deletePost s pk t ht⟩

/-- Witness for C10 on a concrete one-item store. -/
theorem delete_get_is_pure_witness :
    deleteGet demoStore 1 = (demoStore, Response.render "todo_confirm_delete.html" false) ∧
    findItem (deleteGet demoStore 1).1 1 = some demoItem ∧
    findItem (deletePost demoStore 1).1 1 = none :=
  delete_get_is_pure demoStore 1 demoItem (by decide)

theorem ops_notFound (s : Store) (pk : Nat) (body : Body)
    (h : findItem s pk = none) :
    editGet s pk = (s, Response.notFound) ∧
    editPost s pk body = (s, Response.notFound) ∧
    deleteGet s pk = (s, Response.notFound) ∧
    deletePost s pk = (s, Response.notFound) ∧
    togglePost s pk = (s, Response.notFound) := by
  refine ⟨?_, ?_, ?_, ?_, ?_⟩
  · unfold editGet; rw [h]
  · unfold editPost; rw [h]
  · unfold deleteGet; rw [h]
  · unfold deletePost; rw [h]
  · unfold togglePost; rw [h]

/-- C5: a successful delete answers 302 and removes the item; every
subsequent lookup, edit, delete or toggle addressed at that id answers
404 and leaves the store unchanged. -/
theorem delete_then_all_notFound (s : Store) (pk : Nat) (t : TodoItem) (body : Body)
    (ht : findItem s pk = some t) :
    (deletePost s pk).2 = Response.redirect "/" ∧
    findItem (deletePost s pk).1 pk = none ∧
    editGet (deletePost s pk).1 pk = ((deletePost s pk).1, Response.notFound) ∧
    editPost (deletePost s pk).1 pk body = ((deletePost s pk).1, Response.notFound) ∧
    deleteGet (deletePost s pk).1 pk = ((deletePost s pk).1, Response.notFound) ∧
    deletePost (deletePost s pk).1 pk = ((deletePost s pk).1, Response.notFound) ∧
    togglePost (deletePost s pk).1 pk = ((deletePost s pk).1, Response.notFound) := by
  have hn := findItem_deletePost s pk t ht
  have hops := ops_notFound (deletePost s pk).1 pk body hn
  refine ⟨?_, hn, hops.1, hops.2.1, hops.2.2.1, hops.2.2.2.1, hops.2.2.2.2⟩
  unfold deletePost
  rw [ht]

/-- Witness for C5 on a concrete one-item store. -/
theorem delete_then_all_notFound_witness :
    (deletePost demoStore 1).2 = Response.redirect "/" ∧
    findItem (deletePost demoStore 1).1 1 = none ∧
    editGet (deletePost demoStore 1).1 1 = ((deletePost demoStore 1).1, Response.notFound) ∧
    editPost (deletePost demoStore 1).1 1 [("title", "Tea")] =
      ((deletePost demoStore 1).1, Response.notFound) ∧
    deleteGet (deletePost demoStore 1).1 1 = ((deletePost demoStore 1).1, Response.notFound) ∧
    deletePost (deletePost demoStore 1).1 1 = ((deletePost demoStore 1).1, Response.notFound) ∧
    togglePost (deletePost demoStore 1).1 1 = ((deletePost demoStore 1).1, Response.notFound) :=
  delete_then_all_notFound demoStore 1 demoItem [("title", "Tea")] (by decide)

/-- C6: on the toggle route a POST with an unknown id answers 404 with
the store unchanged, any non-POST method answers 405 with the store
unchanged, and a POST with an existing id answers 302 to the list. -/
theorem toggle_route_statuses (s : Store) (pk : Nat) (m : Method) (t : TodoItem) :
    (findItem s pk = none → toggleDispatch Method.POST s pk = (s, Response.notFound)) ∧
    (m ≠ Method.POST → toggleDispatch m s pk = (s, Response.methodNotAllowed)) ∧
    (findItem s pk = some t → (toggleDispatch Method.POST s pk).2 = Response.redirect "/") := by
  refine ⟨fun h => ?_, fun hm => ?_, fun h => ?_⟩
  · show togglePost s pk = _
    unfold togglePost
    rw [h]
  · cases m
    · rfl
    · exact absurd rfl hm
  · show (togglePost s pk).2 = _
    unfold togglePost
    rw [h]

/-- Witness for C6 on a concrete one-item store. -/
theorem toggle_route_statuses_witness :
    (findItem demoStore 99 = none →
      toggleDispatch Method.POST demoStore 99 = (demoStore, Response.notFound)) ∧
    (Method.GET ≠ Method.POST →
      toggleDispatch Method.GET demoStore 99 = (demoStore, Response.methodNotAllowed)) ∧
    (findItem demoStore 99 = some demoItem →
      (toggleDispatch Method.POST demoStore 99).2 = Response.redirect "/") :=
  toggle_route_statuses demoStore 99 Method.GET demoItem

/-- C7: the description default depends on the construction path: a
create form submission without the field persists `description = ""`,
while direct construction without the field leaves it null. -/
theorem description_default_depends_on_path (s : Store) (title : String) (body : Body)
    (hd : List.lookup "description" body = none)
    (htitle : fieldValue body "title" ≠ "") :
    (createDirect s title none false).2.description = none ∧
    ∃ item : TodoItem, (createPost s body).1.items = s.items ++ [item] ∧
      item.description = some "" := by
  refine ⟨rfl,
    ⟨⟨s.nextId, fieldValue body "title", some (fieldValue body "description"),
      false, s.now, s.now⟩, by simp [createPost, htitle], ?_⟩⟩
  show some (fieldValue body "description") = some ""
  unfold fieldValue
  rw [hd]
  rfl

/-- Witness for C7 on a concrete submission. -/
theorem description_default_depends_on_path_witness :
    (createDirect Store.empty "X" none false).2.description = none ∧
    ∃ item : TodoItem,
      (createPost Store.empty [("title", "Tea")]).1.items =
        Store.empty.items ++ [item] ∧
      item.description = some "" :=
  description_default_depends_on_path Store.empty "X" [("title", "Tea")]
    (by decide) (by decide)

theorem toggleUpd_created_at (clock pk : Nat) (x : TodoItem) :
    (toggleUpd clock pk x).created_at = x.created_at := by
  unfold toggleUpd; split <;> rfl

theorem editUpd_created_at (clock pk : Nat) (ti d : String) (c : Bool) (x : TodoItem) :
    (editUpd clock pk ti d c x).created_at = x.created_at := by
  unfold editUpd; split <;> rfl

theorem map_key_created_eq (f : TodoItem → TodoItem)
    (hf : ∀ x, (f x).id = x.id) (hc : ∀ x, (f x).created_at = x.created_at)
    (l : List TodoItem) :
    (l.map f).map (fun u => (u.id, u.created_at)) =
      l.map (fun u => (u.id, u.created_at)) := by
  rw [List.map_map]
  congr 1
  funext x
  simp only [Function.comp_apply, hf, hc]

theorem editPost_items (s : Store) (pk : Nat) (t : TodoItem) (body : Body)
    (ht : findItem s pk = some t) (htitle : fieldValue body "title" ≠ "") :
    (editPost s pk body).1.items =
      s.items.map (editUpd s.now pk (fieldValue body "title")
        (fieldValue body "description") (checkboxValue body "completed")) := by
  unfold editPost
  rw [ht]
  show (if fieldValue body "title" = "" then _ else _ : Store × Response).1.items = _
  rw [if_neg htitle]

theorem togglePost_items (s : Store) (pk : Nat) (t : TodoItem)
    (ht : findItem s pk = some t) :
    (togglePost s pk).1.items = s.items.map (toggleUpd s.now pk) := by
  unfold togglePost
  rw [ht]

/-- C8: `created_at` is assigned at creation and never changed by any
mutation, while `updated_at` is refreshed by update and toggle: the
id-indexed `created_at` table is invariant under toggle and edit, both
creation paths stamp the new item with the current clock, and the
mutated item's `updated_at` equals the clock at mutation time. -/
theorem timestamps_invariant (s : Store) (pk : Nat) (t : TodoItem) (body : Body)
    (ht : findItem s pk = some t) (htitle : fieldValue body "title" ≠ "") :
    ((createPost s body).1.items.map (fun u => (u.id, u.created_at)) =
      s.items.map (fun u => (u.id, u.created_at)) ++ [(s.nextId, s.now)]) ∧
    ((createDirect s "x" none false).2.created_at = s.now ∧
      (createDirect s "x" none false).2.updated_at = s.now) ∧
    ((togglePost s pk).1.items.map (fun u => (u.id, u.created_at)) =
      s.items.map (fun u => (u.id, u.created_at))) ∧
    ((editPost s pk body).1.items.map (fun u => (u.id, u.created_at)) =
      s.items.map (fun u => (u.id, u.created_at))) ∧
    (∃ t₁ : TodoItem, findItem (togglePost s pk).1 pk = some t₁ ∧
      t₁.updated_at = s.now ∧ t₁.created_at = t.created_at) ∧
    (∃ t₂ : TodoItem, findItem (editPost s pk body).1 pk = some t₂ ∧
      t₂.updated_at = s.now ∧ t₂.created_at = t.created_at) := by
  refine ⟨by simp [createPost, htitle], ⟨rfl, rfl⟩, ?_, ?_,
    ⟨_, findItem_togglePost s pk t ht, rfl, rfl⟩,
    ⟨_, findItem_editPost s pk t body ht htitle, rfl, rfl⟩⟩
  · rw [togglePost_items s pk t ht]
    exact map_key_created_eq _ (toggleUpd_id s.now pk) (toggleUpd_created_at s.now pk) s.items
  · rw [editPost_items s pk t body ht htitle]
    exact map_key_created_eq _
      (editUpd_id s.now pk (fieldValue body "title") (fieldValue body "description")
        (checkboxValue body "completed"))
      (editUpd_created_at s.now pk (fieldValue body "title") (fieldValue body "description")
        (checkboxValue body "completed"))
      s.items

/-- Witness for C8 on a concrete one-item store. -/
theorem timestamps_invariant_witness :
    ((createPost demoStore [("title", "Tea")]).1.items.map (fun u => (u.id, u.created_at)) =
      demoStore.items.map (fun u => (u.id, u.created_at)) ++ [(demoStore.nextId, demoStore.now)]) ∧
    ((createDirect demoStore "x" none false).2.created_at = demoStore.now ∧
      (createDirect demoStore "x" none false).2.updated_at = demoStore.now) ∧
    ((togglePost demoStore 1).1.items.map (fun u => (u.id, u.created_at)) =
      demoStore.items.map (fun u => (u.id, u.created_at))) ∧
    ((editPost demoStore 1 [("title", "Tea")]).1.items.map (fun u => (u.id, u.created_at)) =
      demoStore.items.map (fun u => (u.id, u.created_at))) ∧
    (∃ t₁ : TodoItem, findItem (togglePost demoStore 1).1 1 = some t₁ ∧
      t₁.updated_at = demoStore.now ∧ t₁.created_at = demoItem.created_at) ∧
    (∃ t₂ : TodoItem, findItem (editPost demoStore 1 [("title", "Tea")]).1 1 = some t₂ ∧
      t₂.updated_at = demoStore.now ∧ t₂.created_at = demoItem.created_at) :=
  timestamps_invariant demoStore 1 demoItem [("title", "Tea")] (by decide) (by decide)

/-- C9: the create form exposes only title and description, so whatever
the POST body contains the created item has `completed = false`; the
completed flag is set only through edit (to the submitted checkbox
value) or toggle (negation). -/
theorem create_ignores_completed (s : Store) (pk : Nat) (t : TodoItem) (body : Body)
    (ht : findItem s pk = some t) (htitle : fieldValue body "title" ≠ "") :
    (∃ item : TodoItem, (createPost s body).1.items = s.items ++ [item] ∧
      item.completed = false) ∧
    (∃ t' : TodoItem, findItem (editPost s pk body).1 pk = some t' ∧
      t'.completed = checkboxValue body "completed") ∧
    (∃ t'' : TodoItem, findItem (togglePost s pk).1 pk = some t'' ∧
      t''.completed = !t.completed) :=
  ⟨⟨⟨s.nextId, fieldValue body "title", some (fieldValue body "description"),
      false, s.now, s.now⟩, by simp [createPost, htitle], rfl⟩,
    ⟨_, findItem_editPost s pk t body ht htitle, rfl⟩,
    ⟨_, findItem_togglePost s pk t ht, rfl⟩⟩

/-- Witness for C9: a body that even submits `completed=true` still
creates an incomplete item. -/
theorem create_ignores_completed_witness :
    (∃ item : TodoItem,
      (createPost demoStore [("title", "Tea"), ("completed", "true")]).1.items =
        demoStore.items ++ [item] ∧ item.completed = false) ∧
    (∃ t' : TodoItem,
      findItem (editPost demoStore 1 [("title", "Tea"), ("completed", "true")]).1 1 = some t' ∧
      t'.completed = checkboxValue [("title", "Tea"), ("completed", "true")] "completed") ∧
    (∃ t'' : TodoItem, findItem (togglePost demoStore 1).1 1 = some t'' ∧
      t''.completed = !demoItem.completed) :=
  create_ignores_completed demoStore 1 demoItem [("title", "Tea"), ("completed", "true")]
    (by decide) (by decide)

/-- Witness for C1 at a concrete successful and failing submission. -/
theorem create_succeeds_iff_title_nonempty_witness :
    (((createPost Store.empty [("title", "Buy milk")]).2 = Response.redirect "/" ↔
      fieldValue [("title", "Buy milk")] "title" ≠ "") ∧
    (fieldValue [("title", "Buy milk")] "title" ≠ "" →
      ∃ item : TodoItem, item.title = fieldValue [("title", "Buy milk")] "title" ∧
        (createPost Store.empty [("title", "Buy milk")]).1.items =
          Store.empty.items ++ [item]) ∧
    (fieldValue [("title", "Buy milk")] "title" = "" →
      (createPost Store.empty [("title", "Buy milk")]).2 =
        Response.render "todo_form.html" true ∧
      (createPost Store.empty [("title", "Buy milk")]).1 = Store.empty)) :=
  create_succeeds_iff_title_nonempty Store.empty [("title", "Buy milk")]

/-- A sorted list whose member `x` strictly dominates every other entry
on `created_at` starts with `x`. -/
theorem head?_of_sorted_max {l : List TodoItem} {x : TodoItem}
    (hs : List.Sorted createdDesc l) (hx : x ∈ l)
    (hmax : ∀ y ∈ l, y = x ∨ y.created_at < x.created_at) :
    l.head? = some x := by
  cases l with
  | nil => cases hx
  | cons a tl =>
    simp only [List.head?_cons, Option.some.injEq]
    rcases hmax a (List.mem_cons_self a tl) with h | h
    · exact h
    · exfalso
      have hxtl : x ∈ tl := by
        rcases List.mem_cons.mp hx with rfl | hxtl
        · exact absurd h (lt_irrefl _)
        · exact hxtl
      have hle : x.created_at ≤ a.created_at := List.rel_of_sorted_cons hs x hxtl
      exact absurd (lt_of_lt_of_le h hle) (lt_irrefl _)

/-- C2: listing returns every stored item (a permutation of the table),
sorted by `created_at` descending; the empty store lists as the empty
sequence; and in a well-formed store a freshly created item is listed
first. -/
theorem list_all_ordering (s : Store) (body : Body) (hwf : s.WF)
    (htitle : fieldValue body "title" ≠ "") :
    List.Perm (list_all s) s.items ∧
    List.Sorted createdDesc (list_all s) ∧
    list_all Store.empty = [] ∧
    (list_all (createPost s body).1).head? =
      some ⟨s.nextId, fieldValue body "title",
        some (fieldValue body "description"), false, s.now, s.now⟩ := by
  refine ⟨List.perm_insertionSort createdDesc s.items,
    List.sorted_insertionSort createdDesc s.items, rfl, ?_⟩
  have hitems : (createPost s body).1.items =
      s.items ++ [⟨s.nextId, fieldValue body "title",
        some (fieldValue body "description"), false, s.now, s.now⟩] := by
    simp [createPost, htitle]
  have hsorted : List.Sorted createdDesc (list_all (createPost s body).1) :=
    List.sorted_insertionSort createdDesc _
  have hmem : (⟨s.nextId, fieldValue body "title",
      some (fieldValue body "description"), false, s.now, s.now⟩ : TodoItem) ∈
        list_all (createPost s body).1 := by
    unfold list_all
    rw [List.mem_insertionSort, hitems]
    simp
  apply head?_of_sorted_max hsorted hmem
  intro y hy
  unfold list_all at hy
  rw [List.mem_insertionSort, hitems, List.mem_append] at hy
  rcases hy with hy | hy
  · exact Or.inr (hwf y hy).1
  · exact Or.inl (by simpa using hy)

/-- Witness for C2 on a concrete well-formed one-item store. -/
theorem list_all_ordering_witness :
    List.Perm (list_all demoStore) demoStore.items ∧
    List.Sorted createdDesc (list_all demoStore) ∧
    list_all Store.empty = [] ∧
    (list_all (createPost demoStore [("title", "Tea")]).1).head? =
      some ⟨demoStore.nextId, fieldValue [("title", "Tea")] "title",
        some (fieldValue [("title", "Tea")] "description"), false,
        demoStore.now, demoStore.now⟩ :=
  list_all_ordering demoStore [("title", "Tea")] (by decide) (by decide)

end Todo
